import Mathlib

/-!
Verification of the SocialSync multi-platform integration layer.

Shallow embedding of the provider registry, OAuth2 callback flow, sliding
window rate limiter, publishing coordinator, token refresh, the mobile app's
generic API client, and the JWT token provider, together with theorems about
the behavioural properties the specification states for them.

Components the source only sketches at the interface level (token vault
refresh, retry policy, publishing coordinator, OAuth session consumption)
are modelled from the specification text; their doc comments say so.
-/

namespace SocialSync

/-! Section: Sliding window rate limiter

Embedding of `PlatformRateLimiter.slidingWindowRateLimit` from
`task_social_media_integration.md`.  The Redis sorted set is modelled by the
list of its scores (request timestamps in milliseconds); members are random
UUIDs and carry no information relevant to capacity. -/

/-- Entries of the rate-limit sorted set: one timestamp score per recorded
request. -/
abbrev RateEntries := List Int

/-- Models `redisTemplate.opsForZSet().removeRangeByScore(key, lo, hi)`:
removes every entry whose score lies in the closed interval `[lo, hi]`. -/
def removeRangeByScore (entries : RateEntries) (lo hi : Int) : RateEntries :=
  entries.filter (fun s => decide (s < lo) || decide (hi < s))

/-- Models `redisTemplate.opsForZSet().count(key, lo, hi)`: the number of
entries whose score lies in the closed interval `[lo, hi]`. -/
def zCount (entries : RateEntries) (lo hi : Int) : Nat :=
  (entries.filter (fun s => decide (lo ≤ s) && decide (s ≤ hi))).length

/-- Embedding of `PlatformRateLimiter.slidingWindowRateLimit(key, limit,
windowSeconds)` at time `now`: prune entries scored in `[0, windowStart]`,
count the in-window entries, and admit (recording `now`) exactly when the
count is below the limit. Returns the decision and the new entry list. -/
def slidingWindowRateLimit (entries : RateEntries) (now : Int) (limit : Nat)
    (windowSeconds : Int) : Bool × RateEntries :=
  if zCount (removeRangeByScore entries 0 (now - windowSeconds * 1000))
      (now - windowSeconds * 1000) now < limit then
    (true, removeRangeByScore entries 0 (now - windowSeconds * 1000) ++ [now])
  else
    (false, removeRangeByScore entries 0 (now - windowSeconds * 1000))

/-- Runs a sequence of `acquire` calls (one `slidingWindowRateLimit` check
per call time) against the shared entry state, returning the list of
decisions and the final state. -/
def runAcquires (limit : Nat) (windowSeconds : Int) :
    RateEntries → List Int → List Bool × RateEntries
  | entries, [] => ([], entries)
  | entries, t :: ts =>
    let step := slidingWindowRateLimit entries t limit windowSeconds
    let rest := runAcquires limit windowSeconds step.2 ts
    (step.1 :: rest.1, rest.2)

/-! Section: Provider registry

Embedding of `ProviderRegistry` from `task_social_media_integration.md`.
The `Map<String, SocialProvider>` is modelled as an association list with
`java.util.HashMap.put` semantics. -/

/-- Provider identity as the registry sees it.  `displayName` distinguishes
two adapter instances that share an identifier. -/
structure SocialProvider where
  identifier : String
  displayName : String
deriving DecidableEq, Repr

/-- Models `java.util.HashMap.put(k, v)`: replaces the binding for `k` when
one exists, otherwise adds a new binding. -/
def mapPut : List (String × SocialProvider) → String → SocialProvider →
    List (String × SocialProvider)
  | [], k, v => [(k, v)]
  | kv :: rest, k, v =>
    if kv.1 == k then (k, v) :: rest else kv :: mapPut rest k v

/-- Association list lookup, the `Map.get` of the sketch. -/
def alistGet {α : Type} : List (String × α) → String → Option α
  | [], _ => none
  | kv :: rest, k => if kv.1 == k then some kv.2 else alistGet rest k

/-- Embedding of the `ProviderRegistry` constructor:
`providerList.forEach(provider -> providers.put(provider.identifier(), provider))`. -/
def registryOfList (providerList : List SocialProvider) :
    List (String × SocialProvider) :=
  providerList.foldl (fun m p => mapPut m p.identifier p) []

/-- Embedding of `ProviderRegistry.getProvider`. -/
def getProvider (m : List (String × SocialProvider)) (identifier : String) :
    Option SocialProvider :=
  alistGet m identifier

/-! Section: OAuth2 service

Embedding of `OAuth2Service` from `task_social_media_integration.md`.
The adapter side of the flow is the `IAuthenticator` interface; providers
are abstract values of an `Authenticator` structure. -/

/-- Client credentials handed to an adapter, the `ClientInfo` of the sketch. -/
structure ClientInfo where
  clientId : String
  clientSecret : String
deriving DecidableEq, Repr

/-- Token response of a successful code exchange, the `AuthTokenDetails`
of the sketch. -/
structure AuthTokenDetails where
  accessToken : String
  refreshToken : String
  expiresIn : Int
deriving DecidableEq, Repr

/-- Abstract `IAuthenticator` implementation of one platform adapter.
Both operations are those of the source interface: `generateAuthUrl` takes
only the `ClientInfo` (this is the signature the source declares), and
`authenticate(code, codeVerifier, clientInfo)` performs the token exchange,
whose outcome is left abstract. -/
structure Authenticator where
  generateAuthUrl : ClientInfo → String
  authenticate : String → String → ClientInfo → Except String AuthTokenDetails

/-- Stored OAuth session data, the `OAuthState` of the sketch. -/
structure OAuthState where
  stateToken : String
  codeVerifier : String
  userId : String
  providerId : String
deriving DecidableEq, Repr

/-- OAuth session store keyed by state token (Redis with TTL in the source). -/
abbrev OAuthStore := List (String × OAuthState)

/-- Social account produced by a successful callback, the result of
`createSocialAccount(userId, providerId, tokens)`. -/
structure SocialAccount where
  userId : String
  providerId : String
  accessToken : String
  refreshToken : String
deriving DecidableEq, Repr

/-- Errors of the OAuth2 service surface. -/
inductive CallbackError where
  | invalidState
  | providerNotFound
  | authExchange (message : String)
deriving DecidableEq, Repr

/-- Embedding of `storeOAuthState(state, codeVerifier, userId, providerId)`:
records the session under its state token. -/
def storeOAuthState (store : OAuthStore) (state codeVerifier userId providerId :
    String) : OAuthStore :=
  (state, ⟨state, codeVerifier, userId, providerId⟩) :: store

/-- Embedding of `OAuth2Service.generateAuthUrl(providerId, userId)`.
The fresh `state` and `codeVerifier` produced by `generateSecureState` and
`generateCodeVerifier` are passed in as parameters (they are random in the
source).  Exactly as in the source, the service stores the fresh state and
verifier and then returns `provider.generateAuthUrl(clientInfo)` — the
provider call receives only the `ClientInfo`. -/
def oauthGenerateAuthUrl (providers : String → Option Authenticator)
    (getClientInfo : String → ClientInfo)
    (freshState freshCodeVerifier : String) (store : OAuthStore)
    (providerId userId : String) :
    Except CallbackError (String × OAuthStore) :=
  match providers providerId with
  | none => .error .providerNotFound
  | some provider =>
    let state := freshState
    let codeVerifier := freshCodeVerifier
    let store2 := storeOAuthState store state codeVerifier userId providerId
    let clientInfo := getClientInfo providerId
    .ok (provider.generateAuthUrl clientInfo, store2)

/-- Modelled from the spec: the bodies of `validateState(state)` and
`getStoredState(state)` called by `OAuth2Service.handleCallback` are absent
from the source.  Per the specification (§4.3), the session matching the
state token is atomically consumed — deleted from the store — before the
token exchange; a missing (or already consumed) state is an
`InvalidStateError`. -/
def consumeOAuthState (store : OAuthStore) (state : String) :
    Option (OAuthState × OAuthStore) :=
  match alistGet store state with
  | none => none
  | some session => some (session, store.filter (fun kv => !(kv.1 == state)))

/-- Embedding of `OAuth2Service.handleCallback(providerId, code, state)` on
top of `consumeOAuthState`: consume the session, look up the provider,
exchange the code, and create the social account; the store resulting from
consumption is kept on every path after consumption succeeds. -/
def handleCallback (providers : String → Option Authenticator)
    (getClientInfo : String → ClientInfo) (store : OAuthStore)
    (providerId code state : String) :
    Except CallbackError SocialAccount × OAuthStore :=
  match consumeOAuthState store state with
  | none => (.error .invalidState, store)
  | some (session, store2) =>
    match providers providerId with
    | none => (.error .providerNotFound, store2)
    | some provider =>
      match provider.authenticate code session.codeVerifier
          (getClientInfo providerId) with
      | .error e => (.error (.authExchange e), store2)
      | .ok tokens =>
        (.ok ⟨session.userId, providerId, tokens.accessToken,
          tokens.refreshToken⟩, store2)

/-! Section: Generic mobile API client

Embedding of `ApiClient.makeRequest` from `Mobile/src/services/api.ts`:
401 handling with a single token refresh followed by a single retry. -/

/-- Character-list test of whether the first list starts with the second. -/
def hasPrefixChars : List Char → List Char → Bool
  | _, [] => true
  | [], _ :: _ => false
  | c :: cs, d :: ds => (c == d) && hasPrefixChars cs ds

/-- Character-list substring test. -/
def containsChars : List Char → List Char → Bool
  | [], pat => pat.isEmpty
  | c :: cs, pat => hasPrefixChars (c :: cs) pat || containsChars cs pat

/-- Models JavaScript `String.prototype.includes`. -/
def strIncludes (s pat : String) : Bool :=
  containsChars s.data pat.data

/-- Tokens held by the client (`AsyncStorage` in the source). -/
structure ApiClientState where
  accessToken : Option String
  refreshToken : Option String
deriving DecidableEq, Repr

/-- Environment the client runs against: `serverStatus endpoint auth` is the
HTTP status of a request to `endpoint` carrying the given bearer token, and
`refreshOutcome refreshToken` is the new access token the `/auth/refresh`
response body carries when `response.success && data.accessToken` holds. -/
structure ApiEnv where
  serverStatus : String → Option String → Nat
  refreshOutcome : String → Option String

/-- Models the header logic of `makeRequest`: the Authorization header is
attached when the endpoint is not an `/auth/` endpoint or is the logout
endpoint, and an access token is stored. -/
def attachAuth (st : ApiClientState) (endpoint : String) : Option String :=
  if !strIncludes endpoint "/auth/" || strIncludes endpoint "/auth/logout" then
    st.accessToken
  else none

/-- Models `response.ok`: status in the 200 range. -/
def isOkStatus (s : Nat) : Bool :=
  decide (200 ≤ s) && decide (s < 300)

/-- Embedding of `ApiClient.clearTokens`. -/
def clearTokens (_ : ApiClientState) : ApiClientState :=
  ⟨none, none⟩

/-- Embedding of `ApiClient.refreshAccessToken`: without a refresh token the
attempt fails (tokens cleared) before any request is made; otherwise the
`/auth/refresh` request is made (counted in the third component) and on a
successful response carrying an access token the new tokens are stored,
while any failure clears the tokens and yields `none`. -/
def refreshAccessToken (env : ApiEnv) (st : ApiClientState) :
    Option String × ApiClientState × Nat :=
  match st.refreshToken with
  | none => (none, clearTokens st, 0)
  | some rt =>
    let status := env.serverStatus "/auth/refresh" (attachAuth st "/auth/refresh")
    if isOkStatus status then
      match env.refreshOutcome rt with
      | some newTok => (some newTok, ⟨some newTok, some rt⟩, 1)
      | none => (none, clearTokens st, 1)
    else (none, clearTokens st, 1)

/-- Outcome of a `makeRequest` call: the result (`Except` over the failing
HTTP status), the client state afterwards, the number of token refresh
requests made, and the number of requests made to the original endpoint. -/
structure ApiReqOutcome where
  result : Except Nat Unit
  state : ApiClientState
  refreshes : Nat
  attempts : Nat
deriving Repr

/-- Embedding of `makeRequest(endpoint, config, isRetry := true)`: the
retried request is a plain request — a 401 here is not retried again. -/
def makeRequestRetry (env : ApiEnv) (st : ApiClientState) (endpoint : String) :
    ApiReqOutcome :=
  let status := env.serverStatus endpoint (attachAuth st endpoint)
  if isOkStatus status then ⟨.ok (), st, 0, 1⟩
  else ⟨.error status, st, 0, 1⟩

/-- Embedding of `makeRequest(endpoint, config, isRetry := false)`: on a 401
from a non-`/auth/` endpoint the client refreshes the access token and, when
the refresh produced a token, retries the original request exactly once
(with `isRetry := true`); otherwise the error status propagates. -/
def makeRequest (env : ApiEnv) (st : ApiClientState) (endpoint : String) :
    ApiReqOutcome :=
  let status := env.serverStatus endpoint (attachAuth st endpoint)
  if isOkStatus status then ⟨.ok (), st, 0, 1⟩
  else if status == 401 && !strIncludes endpoint "/auth/" then
    match refreshAccessToken env st with
    | (some _, st2, r) =>
      let o := makeRequestRetry env st2 endpoint
      ⟨o.result, o.state, r, 1 + o.attempts⟩
    | (none, st2, r) => ⟨.error 401, st2, r, 1⟩
  else ⟨.error status, st, 0, 1⟩

/-! Section: JWT token provider

Embedding of `JwtTokenProvider.java`.  A signed JWT is modelled as its
claims plus the identity of the HMAC key that signed it; parsing succeeds
exactly when the signature key matches the provider's key and the token is
not expired (jjwt's `parseClaimsJws` throws on either condition). -/

/-- Configuration of one `JwtTokenProvider` instance. -/
structure JwtTokenProvider where
  secretKey : Nat
  accessTokenExpiration : Int
  refreshTokenExpiration : Int
deriving DecidableEq, Repr

/-- Claims carried by a generated token. -/
structure JwtClaims where
  subject : String
  email : Option String
  roles : Option (List String)
  tokenType : String
  issuedAt : Int
  expiration : Int
deriving DecidableEq, Repr

/-- Signed token: claims plus signing key identity. -/
structure Jwt where
  claims : JwtClaims
  signKey : Nat
deriving DecidableEq, Repr

/-- Failure modes of `parseClaimsJws`. -/
inductive JwtError where
  | invalidSignature
  | expired
deriving DecidableEq, Repr

/-- Embedding of `generateAccessToken(userId, email, roles)` at time `now`. -/
def generateAccessToken (p : JwtTokenProvider) (now : Int)
    (userId email : String) (roles : List String) : Jwt :=
  ⟨⟨userId, some email, some roles, "access", now,
    now + p.accessTokenExpiration⟩, p.secretKey⟩

/-- Embedding of `generateRefreshToken(userId)` at time `now`. -/
def generateRefreshToken (p : JwtTokenProvider) (now : Int)
    (userId : String) : Jwt :=
  ⟨⟨userId, none, none, "refresh", now, now + p.refreshTokenExpiration⟩,
    p.secretKey⟩

/-- Embedding of `getClaimsFromToken` at validation time `now`: fails on a
signature mismatch or when `now` is past the expiration. -/
def getClaimsFromToken (p : JwtTokenProvider) (now : Int) (t : Jwt) :
    Except JwtError JwtClaims :=
  if t.signKey ≠ p.secretKey then .error .invalidSignature
  else if t.claims.expiration < now then .error .expired
  else .ok t.claims

/-- Embedding of `getUserIdFromToken`. -/
def getUserIdFromToken (p : JwtTokenProvider) (now : Int) (t : Jwt) :
    Except JwtError String :=
  (getClaimsFromToken p now t).map (fun c => c.subject)

/-- Embedding of `validateToken`: parsing succeeds. -/
def validateToken (p : JwtTokenProvider) (now : Int) (t : Jwt) : Bool :=
  match getClaimsFromToken p now t with
  | .ok _ => true
  | .error _ => false

/-- Embedding of `validateAccessToken`: a valid token whose `type` claim is
`"access"`. -/
def validateAccessToken (p : JwtTokenProvider) (now : Int) (t : Jwt) : Bool :=
  match getClaimsFromToken p now t with
  | .ok c => c.tokenType == "access"
  | .error _ => false

/-- Embedding of `validateRefreshToken`: a valid token whose `type` claim is
`"refresh"`. -/
def validateRefreshToken (p : JwtTokenProvider) (now : Int) (t : Jwt) : Bool :=
  match getClaimsFromToken p now t with
  | .ok c => c.tokenType == "refresh"
  | .error _ => false

/-! Section: Resilience policy: retry

The retry policy is never implemented in the source (only a Resilience4j
YAML sketch and the task list mention it), so it is modelled from the
specification (§4.5). -/

/-- Failure taxonomy of an adapter call (§4.1 of the specification). -/
inductive AdapterError where
  | transientNetwork
  | rateLimited (retryAfter : Int)
  | tokenRevoked
  | platformRejected (reason : String)
  | tokenExpired
  | authExchange
deriving DecidableEq, Repr

/-- Outcome of one adapter `post` call: the platform post id and URL, or a
failure. -/
abbrev AdapterOutcome := Except AdapterError (String × String)

/-- Modelled from the spec: "only `TransientNetworkError` and
`RateLimitedError` are retried"; every other kind is terminal for the
policy. -/
def isRetryableError : AdapterError → Bool
  | .transientNetwork => true
  | .rateLimited _ => true
  | _ => false

/-- Retry loop: attempt `k` is `call k`; with `n` retries remaining, a
retryable failure moves to attempt `k + 1`, anything else is final.
Returns the final outcome and the number of attempts made. -/
def retryLoop (call : Nat → AdapterOutcome) : Nat → Nat → AdapterOutcome × Nat
  | k, 0 => (call k, k + 1)
  | k, n + 1 =>
    match call k with
    | .ok r => (.ok r, k + 1)
    | .error e =>
      if isRetryableError e then retryLoop call (k + 1) n
      else (.error e, k + 1)

/-- Modelled from the spec: a call under the resilience policy makes at most
`maxAttempts` attempts, retrying only retryable failures. -/
def callWithRetry (call : Nat → AdapterOutcome) (maxAttempts : Nat) :
    AdapterOutcome × Nat :=
  retryLoop call 0 (maxAttempts - 1)

/-! Section: Publishing coordinator

`PublishingCoordinator` is described in the specification (§4.6) but never
implemented in the source, so it is modelled from the specification. -/

/-- Per-target outcome variants of a publish. -/
inductive PublishOutcome where
  | published (platformPostId platformUrl : String)
  | failed (errorKind message : String) (retryable : Bool)
  | rateLimited (retryAfter : Int)
deriving DecidableEq, Repr

/-- Publish request: content plus the list of target integration ids. -/
structure PublishRequest where
  content : String
  targets : List String
deriving DecidableEq, Repr

/-- One per-target result, tagged with its target. -/
structure PublishResult where
  target : String
  outcome : PublishOutcome
deriving DecidableEq, Repr

/-- Maps a final adapter outcome to the per-target publish outcome,
following the failure taxonomy of §4.1/§4.6. -/
def outcomeOfAdapter : AdapterOutcome → PublishOutcome
  | .ok (postId, url) => .published postId url
  | .error .transientNetwork => .failed "TRANSIENT_NETWORK" "retries exhausted" true
  | .error (.rateLimited retryAfter) => .rateLimited retryAfter
  | .error .tokenRevoked => .failed "TOKEN_REVOKED" "token revoked" false
  | .error (.platformRejected reason) => .failed "PLATFORM_REJECTED" reason false
  | .error .tokenExpired => .failed "TOKEN_EXPIRED" "token expired" false
  | .error .authExchange => .failed "AUTH_EXCHANGE" "auth exchange failed" false

/-- Modelled from the spec (§4.6): one target's pipeline — `ensureFresh`
(whose failure yields `FAILED(REAUTH_REQUIRED, retryable := false)` without
attempting the post), then the adapter call under the retry policy.
`ensureFreshFor t` is the access token for target `t`, or `none` when
re-authentication is required; `callAdapter t token k` is attempt `k` of
the post for target `t`. -/
def publishTarget (ensureFreshFor : String → Option String)
    (callAdapter : String → String → Nat → AdapterOutcome)
    (maxAttempts : Nat) (t : String) : PublishResult :=
  match ensureFreshFor t with
  | none => ⟨t, .failed "REAUTH_REQUIRED" "re-authentication required" false⟩
  | some token =>
    ⟨t, outcomeOfAdapter (callWithRetry (callAdapter t token) maxAttempts).1⟩

/-- Modelled from the spec (§4.6): `publish` processes each target
independently and records one outcome per target. -/
def publish (ensureFreshFor : String → Option String)
    (callAdapter : String → String → Nat → AdapterOutcome)
    (maxAttempts : Nat) (req : PublishRequest) : List PublishResult :=
  req.targets.map (publishTarget ensureFreshFor callAdapter maxAttempts)

/-! Section: Token vault: single-flight refresh

`TokenVault.ensureFresh` is described in the specification (§4.4) but never
implemented in the source, so its concurrency contract is modelled from the
specification: the per-integration mutex serializes the callers in their
(arbitrary) arrival order, the first caller performs the refresh, and the
waiting callers reuse its cached result. -/

/-- Modelled from the spec (§4.4): runs `n` queued `ensureFresh` callers for
one integration against the shared single-flight state, which is the cached
refresh result (`cache`) and the number of adapter `refreshToken` calls made
so far (`calls`).  `refresh k` is the token the adapter would return on its
`k`-th invocation.  Returns each caller's token, the final cache, and the
final call count. -/
def ensureFreshRun (refresh : Nat → String) :
    Nat → Option String → Nat → List String × Option String × Nat
  | 0, cache, calls => ([], cache, calls)
  | n + 1, cache, calls =>
    match cache with
    | some tok =>
      let rest := ensureFreshRun refresh n (some tok) calls
      (tok :: rest.1, rest.2)
    | none =>
      let tok := refresh calls
      let rest := ensureFreshRun refresh n (some tok) (calls + 1)
      (tok :: rest.1, rest.2)

/-! Section: Concrete instances used by witnesses and counterexamples -/

/-- Expected decision sequence of a run of acquires: starting from `n`
recorded in-window requests, each of `k` calls is admitted exactly when the
current count is below the limit, and an admitted call records one more
request. -/
def decisions (limit : Nat) : Nat → Nat → List Bool
  | _, 0 => []
  | n, k + 1 => decide (n < limit) :: decisions limit (if n < limit then n + 1 else n) k

/-- Demo adapter instance sharing its identifier with `twitterV2`. -/
def twitterV1 : SocialProvider := ⟨"twitter", "Twitter v1"⟩

/-- Demo adapter instance sharing its identifier with `twitterV1`. -/
def twitterV2 : SocialProvider := ⟨"twitter", "Twitter v2"⟩

/-- Demo authenticator whose authorization URL is built from the client id
alone, the shape the source sketch forces. -/
def twitterDemo : Authenticator :=
  ⟨fun ci => "https://twitter.example/oauth?client_id=" ++ ci.clientId,
   fun _ _ _ => .error "exchange refused"⟩

/-- Demo provider lookup exposing `twitterDemo` under `"twitter"`. -/
def demoProviders : String → Option Authenticator :=
  fun pid => if pid == "twitter" then some twitterDemo else none

/-- Demo client-credential lookup. -/
def demoClientInfoFor : String → ClientInfo :=
  fun _ => ⟨"cid", "secret"⟩

/-- Demo OAuth store holding one live session under state `"s1"`. -/
def demoStore : OAuthStore :=
  [("s1", ⟨"s1", "cv", "u1", "twitter"⟩)]

/-- Demo API environment: the refresh endpoint succeeds and rotates the
access token to `"t2"`; every other endpoint answers 200 only under the
rotated token and 401 otherwise. -/
def demoApiEnv : ApiEnv :=
  ⟨fun e tok =>
    if e == "/auth/refresh" then 200
    else if tok == some "t2" then 200 else 401,
   fun _ => some "t2"⟩

/-- Demo API client state: stale access token, valid refresh token. -/
def demoApiSt : ApiClientState := ⟨some "t1", some "r1"⟩

/-! Section: Registry theorems (claim C3) -/

/-- Helper: after `mapPut m k v`, looking up `k` yields `v`. -/
lemma mapPut_get_same (m : List (String × SocialProvider)) (k : String)
    (v : SocialProvider) : getProvider (mapPut m k v) k = some v := by
  induction m with
  | nil => simp [mapPut, getProvider, alistGet]
  | cons hd tl ih =>
    by_cases hk : hd.1 = k
    · simp [mapPut, getProvider, alistGet, hk]
    · have hkb : (hd.1 == k) = false := beq_eq_false_iff_ne.mpr hk
      simpa [mapPut, getProvider, alistGet, hkb] using ih

/-- Helper: `mapPut m k v` does not change the binding of any other key. -/
lemma mapPut_get_other (m : List (String × SocialProvider)) (k k2 : String)
    (v : SocialProvider) (h : k2 ≠ k) :
    getProvider (mapPut m k v) k2 = getProvider m k2 := by
  have hk2 : (k == k2) = false := beq_eq_false_iff_ne.mpr (fun hk => h hk.symm)
  induction m with
  | nil => simp [mapPut, getProvider, alistGet, hk2]
  | cons hd tl ih =>
    by_cases hk : hd.1 = k
    · have hhd2 : (hd.1 == k2) = false := by
        rw [hk]
        exact hk2
      simp [mapPut, getProvider, alistGet, hk, hk2, hhd2]
    · have hkb : (hd.1 == k) = false := beq_eq_false_iff_ne.mpr hk
      cases hd2 : (hd.1 == k2) with
      | true => simp [mapPut, getProvider, alistGet, hkb, hd2]
      | false => simpa [mapPut, getProvider, alistGet, hkb, hd2] using ih

/-- Claim C3, counterexample: registering a second adapter with the already
registered identifier `"twitter"` raises no error — the model of the
constructor is total — and does not leave the provider map unchanged: the
new adapter silently replaces the old one. -/
theorem register_duplicate_cex :
    getProvider (registryOfList [twitterV1, twitterV2]) "twitter" = some twitterV2 ∧
    twitterV2 ≠ twitterV1 ∧
    registryOfList [twitterV1, twitterV2] ≠ registryOfList [twitterV1] := by
  decide

/-- Claim C3, amended: registering an adapter whose identifier equals that
of an already-registered adapter does not fail; the `HashMap.put` of the
registry constructor silently replaces the previous adapter under that
identifier and leaves every other identifier's binding unchanged. -/
theorem register_duplicate_replaces (m : List (String × SocialProvider))
    (p : SocialProvider)
    (_hdup : (getProvider m p.identifier).isSome = true) :
    getProvider (mapPut m p.identifier p) p.identifier = some p ∧
    ∀ k, k ≠ p.identifier → getProvider (mapPut m p.identifier p) k = getProvider m k := by
  exact ⟨mapPut_get_same m p.identifier p,
    fun k hk => mapPut_get_other m p.identifier k p hk⟩

/-- Witness for `register_duplicate_replaces` at a concrete registry. -/
theorem register_duplicate_replaces_witness :
    getProvider (mapPut (registryOfList [twitterV1]) twitterV2.identifier twitterV2)
        twitterV2.identifier = some twitterV2 ∧
    getProvider (mapPut (registryOfList [twitterV1]) twitterV2.identifier twitterV2)
        "facebook" = getProvider (registryOfList [twitterV1]) "facebook" :=
  ⟨(register_duplicate_replaces (registryOfList [twitterV1]) twitterV2 (by decide)).1,
   (register_duplicate_replaces (registryOfList [twitterV1]) twitterV2 (by decide)).2
     "facebook" (by decide)⟩

/-! Section: OAuth callback theorems (claims C1, C2) -/

/-- Helper: a session deleted from the store can no longer be looked up. -/
lemma alistGet_filter_ne (l : OAuthStore) (state : String) :
    alistGet (l.filter (fun kv => !(kv.1 == state))) state = none := by
  induction l with
  | nil => rfl
  | cons hd tl ih =>
    cases hhd : (hd.1 == state) with
    | true => simpa [List.filter, hhd] using ih
    | false => simpa [List.filter, alistGet, hhd] using ih

/-- Helper: every callback, whatever its outcome, leaves no session under
the state token it was called with. -/
lemma handleCallback_consumes (providers : String → Option Authenticator)
    (gci : String → ClientInfo) (store : OAuthStore)
    (pid code state : String) :
    alistGet (handleCallback providers gci store pid code state).2 state = none := by
  unfold handleCallback
  cases hc : consumeOAuthState store state with
  | none =>
    have hget : alistGet store state = none := by
      unfold consumeOAuthState at hc
      cases hg : alistGet store state
      · rfl
      · rw [hg] at hc
        exact Option.noConfusion hc
    simpa using hget
  | some pair =>
    obtain ⟨session, store2⟩ := pair
    have hstore2 : store2 = store.filter (fun kv => !(kv.1 == state)) := by
      unfold consumeOAuthState at hc
      cases hg : alistGet store state
      · rw [hg] at hc
        exact Option.noConfusion hc
      · rw [hg] at hc
        have := Option.some.inj hc
        exact congrArg Prod.snd this.symm
    cases providers pid with
    | none => simpa [hstore2] using alistGet_filter_ne store state
    | some provider =>
      cases hauth : provider.authenticate code session.codeVerifier (gci pid) with
      | error e => simpa [hauth, hstore2] using alistGet_filter_ne store state
      | ok tokens => simpa [hauth, hstore2] using alistGet_filter_ne store state

/-- Helper: a callback for a state token with no live session fails with
`InvalidStateError` and leaves the store untouched. -/
lemma handleCallback_dead_state (providers : String → Option Authenticator)
    (gci : String → ClientInfo) (store : OAuthStore)
    (pid code state : String) (h : alistGet store state = none) :
    handleCallback providers gci store pid code state = (.error .invalidState, store) := by
  unfold handleCallback consumeOAuthState
  rw [h]

/-- Claim C1: a callback presenting a given state token succeeds at most
once.  Whatever the first callback did — including a failed token exchange,
since the authenticate outcome of `providers` is arbitrary — the store it
leaves behind holds no session for that state token, so a second callback
with the same state fails with `InvalidStateError`. -/
theorem callback_state_single_use (providers : String → Option Authenticator)
    (gci : String → ClientInfo) (store : OAuthStore)
    (pid1 pid2 code1 code2 state : String) :
    alistGet (handleCallback providers gci store pid1 code1 state).2 state = none ∧
    (handleCallback providers gci
        (handleCallback providers gci store pid1 code1 state).2
        pid2 code2 state).1 = .error .invalidState := by
  refine ⟨handleCallback_consumes providers gci store pid1 code1 state, ?_⟩
  rw [handleCallback_dead_state providers gci _ pid2 code2 state
    (handleCallback_consumes providers gci store pid1 code1 state)]

/-- Witness for `callback_state_single_use` on a store with one live
session: the first callback consumes the session (here the exchange itself
even fails), and the duplicate callback is rejected. -/
theorem callback_state_single_use_witness :
    (handleCallback demoProviders demoClientInfoFor
        (handleCallback demoProviders demoClientInfoFor demoStore
          "twitter" "c1" "s1").2
        "twitter" "c2" "s1").1 = .error .invalidState :=
  (callback_state_single_use demoProviders demoClientInfoFor demoStore
    "twitter" "twitter" "c1" "c2" "s1").2

/-- Claim C2, evaluated on the code: `OAuth2Service.generateAuthUrl` stores
the freshly generated state but passes only the `ClientInfo` to
`provider.generateAuthUrl`, so the authorization URL it returns is the same
whatever the fresh state is — it cannot embed the state (or the PKCE
challenge) of the freshly created session.  The second and third conjuncts
evaluate the service at a concrete failing input: the session stored under
state `"s-abc123"` is live, yet the returned URL does not contain
`"s-abc123"`. -/
theorem generateAuthUrl_state_not_embedded :
    (∀ (providers : String → Option Authenticator)
       (gci : String → ClientInfo) (s1 s2 cv : String)
       (store : OAuthStore) (pid uid : String),
      (oauthGenerateAuthUrl providers gci s1 cv store pid uid).map Prod.fst
        = (oauthGenerateAuthUrl providers gci s2 cv store pid uid).map Prod.fst) ∧
    (oauthGenerateAuthUrl demoProviders demoClientInfoFor "s-abc123" "cv" []
        "twitter" "u1"
      = .ok ("https://twitter.example/oauth?client_id=cid",
          [("s-abc123", ⟨"s-abc123", "cv", "u1", "twitter"⟩)])) ∧
    strIncludes "https://twitter.example/oauth?client_id=cid" "s-abc123" = false := by
  refine ⟨fun providers gci s1 s2 cv store pid uid => ?_, rfl, by decide⟩
  unfold oauthGenerateAuthUrl
  cases providers pid <;> rfl

/-! Section: JWT theorems (claim C9) -/

/-- Claim C9: on one provider instance and within the token lifetimes,
`getUserIdFromToken` inverts `generateAccessToken` on the user id,
`validateAccessToken` accepts generated access tokens and rejects generated
refresh tokens, and `validateRefreshToken` does the converse. -/
theorem jwt_roundtrip (p : JwtTokenProvider) (now now2 : Int)
    (userId email : String) (roles : List String)
    (hacc : now2 ≤ now + p.accessTokenExpiration)
    (href : now2 ≤ now + p.refreshTokenExpiration) :
    getUserIdFromToken p now2 (generateAccessToken p now userId email roles)
      = .ok userId ∧
    validateAccessToken p now2 (generateAccessToken p now userId email roles)
      = true ∧
    validateAccessToken p now2 (generateRefreshToken p now userId) = false ∧
    validateRefreshToken p now2 (generateRefreshToken p now userId) = true ∧
    validateRefreshToken p now2 (generateAccessToken p now userId email roles)
      = false := by
  have h1 : ¬ (now + p.accessTokenExpiration < now2) := not_lt.mpr hacc
  have h2 : ¬ (now + p.refreshTokenExpiration < now2) := not_lt.mpr href
  refine ⟨?_, ?_, ?_, ?_, ?_⟩ <;>
    simp [getUserIdFromToken, validateAccessToken, validateRefreshToken,
      getClaimsFromToken, generateAccessToken, generateRefreshToken,
      h1, h2, Except.map]

/-- Witness for `jwt_roundtrip` on a concrete provider and clock. -/
theorem jwt_roundtrip_witness :
    getUserIdFromToken ⟨1, 3600000, 7200000⟩ 1000
        (generateAccessToken ⟨1, 3600000, 7200000⟩ 0 "u1" "e" ["USER"])
      = .ok "u1" ∧
    validateAccessToken ⟨1, 3600000, 7200000⟩ 1000
        (generateRefreshToken ⟨1, 3600000, 7200000⟩ 0 "u1") = false :=
  ⟨(jwt_roundtrip ⟨1, 3600000, 7200000⟩ 0 1000 "u1" "e" ["USER"]
      (by decide) (by decide)).1,
   (jwt_roundtrip ⟨1, 3600000, 7200000⟩ 0 1000 "u1" "e" ["USER"]
      (by decide) (by decide)).2.2.1⟩

/-! Section: Publishing coordinator theorems (claim C5) -/

/-- Helper: a per-target result is always tagged with its own target. -/
lemma publishTarget_target (ensureFreshFor : String → Option String)
    (callAdapter : String → String → Nat → AdapterOutcome)
    (maxAttempts : Nat) (t : String) :
    (publishTarget ensureFreshFor callAdapter maxAttempts t).target = t := by
  unfold publishTarget
  cases ensureFreshFor t <;> rfl

/-- Claim C5: `publish` returns exactly one result per target, in order:
the results' target tags are exactly the request's target list (so the
count matches and no target is dropped), and each result is the one its
own target's pipeline produces, independent of every other target. -/
theorem publish_results_complete (ensureFreshFor : String → Option String)
    (callAdapter : String → String → Nat → AdapterOutcome)
    (maxAttempts : Nat) (req : PublishRequest) :
    (publish ensureFreshFor callAdapter maxAttempts req).length
      = req.targets.length ∧
    (publish ensureFreshFor callAdapter maxAttempts req).map PublishResult.target
      = req.targets ∧
    ∀ r ∈ publish ensureFreshFor callAdapter maxAttempts req,
      r = publishTarget ensureFreshFor callAdapter maxAttempts r.target := by
  refine ⟨by simp [publish], ?_, ?_⟩
  · rw [publish, List.map_map]
    have : (PublishResult.target ∘ publishTarget ensureFreshFor callAdapter maxAttempts)
        = fun t => t := by
      funext t
      exact publishTarget_target ensureFreshFor callAdapter maxAttempts t
    rw [this]
    simp
  · intro r hr
    rw [publish, List.mem_map] at hr
    obtain ⟨t, _, ht⟩ := hr
    have : r.target = t := by
      rw [← ht, publishTarget_target]
    rw [this, ht]

/-- Witness for `publish_results_complete` on a three-target request with a
mixed outcome (one reauth failure, one success). -/
theorem publish_results_complete_witness :
    (publish (fun t => if t == "i2" then none else some "tok")
        (fun _ _ _ => .ok ("p", "u")) 3 ⟨"hello", ["i1", "i2", "i3"]⟩).map
      PublishResult.target = ["i1", "i2", "i3"] :=
  (publish_results_complete (fun t => if t == "i2" then none else some "tok")
    (fun _ _ _ => .ok ("p", "u")) 3 ⟨"hello", ["i1", "i2", "i3"]⟩).2.1

/-! Section: Retry policy theorems (claim C6) -/

/-- Helper: every attempt the retry loop moved past was a retryable
failure. -/
lemma retryLoop_attempt_retryable (f : Nat → AdapterOutcome) :
    ∀ (n k0 k : Nat), k0 ≤ k → k + 1 < (retryLoop f k0 n).2 →
      ∃ e2, f k = .error e2 ∧ isRetryableError e2 = true := by
  intro n
  induction n with
  | zero =>
    intro k0 k hle hlt
    simp only [retryLoop] at hlt
    omega
  | succ n ih =>
    intro k0 k hle hlt
    cases hc : f k0 with
    | ok r =>
      rw [retryLoop, hc] at hlt
      simp at hlt
      omega
    | error e =>
      by_cases hre : isRetryableError e = true
      · simp only [retryLoop, hc, hre, if_true] at hlt
        rcases Nat.lt_or_ge k (k0 + 1) with hk | hk
        · have hkk : k = k0 := by omega
          subst hkk
          exact ⟨e, hc, hre⟩
        · exact ih (k0 + 1) k hk hlt
      · simp [retryLoop, hc, hre] at hlt
        omega

/-- Claim C6: a terminal error — `TokenRevokedError` or
`PlatformRejectedError` — on the first attempt ends the call at exactly one
attempt (zero retries) with that error as the final result; and in any run
of the policy, every attempt that was followed by another was a retryable
(`TransientNetworkError` or `RateLimitedError`) failure. -/
theorem retry_terminal_zero_retries (call : Nat → AdapterOutcome) (m : Nat)
    (e : AdapterError)
    (hterm : e = .tokenRevoked ∨ ∃ r, e = .platformRejected r)
    (hcall : call 0 = .error e) :
    callWithRetry call m = (.error e, 1) ∧
    ∀ (f : Nat → AdapterOutcome) (n k : Nat), k + 1 < (callWithRetry f n).2 →
      ∃ e2, f k = .error e2 ∧ isRetryableError e2 = true := by
  have hret : isRetryableError e = false := by
    rcases hterm with h | ⟨r, h⟩ <;> subst h <;> rfl
  constructor
  · unfold callWithRetry
    cases hm : m - 1 with
    | zero => simp [retryLoop, hcall]
    | succ n => simp [retryLoop, hcall, hret]
  · intro f n k hlt
    exact retryLoop_attempt_retryable f (n - 1) 0 k (Nat.zero_le k) hlt

/-- Witness for `retry_terminal_zero_retries`: an adapter that reports a
revoked token is called exactly once even with a budget of five attempts. -/
theorem retry_terminal_zero_retries_witness :
    callWithRetry (fun _ => Except.error AdapterError.tokenRevoked) 5
      = (.error .tokenRevoked, 1) :=
  (retry_terminal_zero_retries (fun _ => Except.error AdapterError.tokenRevoked)
    5 .tokenRevoked (Or.inl rfl) rfl).1

/-! Section: Token vault theorems (claim C7) -/

/-- Helper: once a refresh result is cached, the remaining callers reuse it
and the call count never moves. -/
lemma ensureFreshRun_cached (refresh : Nat → String) (n : Nat) (t : String)
    (c : Nat) :
    ensureFreshRun refresh n (some t) c = (List.replicate n t, some t, c) := by
  induction n with
  | zero => rfl
  | succ n ih => simp [ensureFreshRun, ih, List.replicate_succ]

/-- Claim C7: running any number of queued `ensureFresh` callers for one
integration makes at most one adapter `refreshToken` call, and every caller
receives the token of that single first refresh. -/
theorem ensureFresh_single_flight (refresh : Nat → String) (n : Nat) :
    (ensureFreshRun refresh n none 0).2.2 ≤ 1 ∧
    ∀ tok ∈ (ensureFreshRun refresh n none 0).1, tok = refresh 0 := by
  cases n with
  | zero =>
    constructor
    · simp [ensureFreshRun]
    · intro tok htok
      simp [ensureFreshRun] at htok
  | succ n =>
    constructor
    · simp [ensureFreshRun, ensureFreshRun_cached]
    · intro tok htok
      simp [ensureFreshRun, ensureFreshRun_cached] at htok
      rcases htok with h | h
      · exact h
      · exact h.2

/-- Witness for `ensureFresh_single_flight` with five queued callers: one
adapter call, and the third caller gets the first refresh's token. -/
theorem ensureFresh_single_flight_witness :
    (ensureFreshRun (fun k => if k == 0 then "tokA" else "tokB") 5 none 0).2.2 ≤ 1 ∧
    "tokA" = (fun k => if k == 0 then "tokA" else "tokB") 0 :=
  ⟨(ensureFresh_single_flight (fun k => if k == 0 then "tokA" else "tokB") 5).1,
   (ensureFresh_single_flight (fun k => if k == 0 then "tokA" else "tokB") 5).2
     "tokA" (by decide)⟩

/-! Section: API client theorems (claim C8) -/

/-- Helper: a refresh attempt makes at most one refresh request. -/
lemma refreshAccessToken_calls_le (env : ApiEnv) (st : ApiClientState) :
    (refreshAccessToken env st).2.2 ≤ 1 := by
  unfold refreshAccessToken
  cases st.refreshToken with
  | none => simp
  | some rt =>
    by_cases hok : isOkStatus (env.serverStatus "/auth/refresh"
        (attachAuth st "/auth/refresh")) = true
    · simp only [hok, if_true]
      cases env.refreshOutcome rt <;> simp
    · simp [hok]

/-- Helper: the retried request is exactly one plain attempt with no
refresh logic. -/
lemma makeRequestRetry_shape (env : ApiEnv) (st : ApiClientState)
    (endpoint : String) :
    (makeRequestRetry env st endpoint).attempts = 1 ∧
    (makeRequestRetry env st endpoint).refreshes = 0 := by
  unfold makeRequestRetry
  by_cases hok : isOkStatus (env.serverStatus endpoint (attachAuth st endpoint)) = true <;>
    simp [hok]

/-- Claim C8: a 401 on a non-auth endpoint triggers at most one token
refresh followed by at most one retry of the original request; when the
refresh fails the 401 propagates with a single attempt made, and when the
refresh succeeds the final result is exactly that of the single retried
plain request (which itself performs no further refresh or retry). -/
theorem makeRequest_single_refresh_retry (env : ApiEnv) (st : ApiClientState)
    (endpoint : String)
    (hne : strIncludes endpoint "/auth/" = false)
    (h401 : env.serverStatus endpoint (attachAuth st endpoint) = 401) :
    (makeRequest env st endpoint).refreshes ≤ 1 ∧
    (makeRequest env st endpoint).attempts ≤ 2 ∧
    ((refreshAccessToken env st).1 = none →
      (makeRequest env st endpoint).result = .error 401 ∧
      (makeRequest env st endpoint).attempts = 1) ∧
    (∀ tok st2 r, refreshAccessToken env st = (some tok, st2, r) →
      (makeRequest env st endpoint).attempts = 2 ∧
      (makeRequest env st endpoint).result
        = (makeRequestRetry env st2 endpoint).result) := by
  have hcalls := refreshAccessToken_calls_le env st
  have h401f : isOkStatus 401 = false := by decide
  rcases hrf : refreshAccessToken env st with ⟨o, st2, r⟩
  have hr1 : r ≤ 1 := by
    rw [hrf] at hcalls
    exact hcalls
  cases o with
  | none =>
    have hmk : makeRequest env st endpoint = ⟨.error 401, st2, r, 1⟩ := by
      unfold makeRequest
      rw [h401]
      simp only [h401f, hne]
      rw [hrf]
      simp
    refine ⟨by simp [hmk, hr1], by simp [hmk], fun _ => by simp [hmk], ?_⟩
    intro tok st2a ra heq
    simp at heq
  | some tok =>
    have hmk : makeRequest env st endpoint
        = ⟨(makeRequestRetry env st2 endpoint).result,
           (makeRequestRetry env st2 endpoint).state, r,
           1 + (makeRequestRetry env st2 endpoint).attempts⟩ := by
      unfold makeRequest
      rw [h401]
      simp only [h401f, hne]
      rw [hrf]
      simp
    have h1 := (makeRequestRetry_shape env st2 endpoint).1
    refine ⟨by simp [hmk, hr1], by simp [hmk, h1], ?_, ?_⟩
    · intro habs
      simp at habs
    · intro tok2 st2a ra heq
      have hst : st2 = st2a := by
        have h2 := congrArg (fun q => q.2.1) heq
        simpa using h2
      subst hst
      exact ⟨by simp [hmk, h1], by simp [hmk]⟩

/-- Witness for `makeRequest_single_refresh_retry` on the demo environment:
the stale token 401s, one refresh rotates it, the one retry succeeds. -/
theorem makeRequest_single_refresh_retry_witness :
    (makeRequest demoApiEnv demoApiSt "/posts").refreshes ≤ 1 ∧
    (makeRequest demoApiEnv demoApiSt "/posts").attempts = 2 ∧
    (makeRequest demoApiEnv demoApiSt "/posts").result
      = (makeRequestRetry demoApiEnv ⟨some "t2", some "r1"⟩ "/posts").result :=
  ⟨(makeRequest_single_refresh_retry demoApiEnv demoApiSt "/posts"
      (by decide) (by decide)).1,
   ((makeRequest_single_refresh_retry demoApiEnv demoApiSt "/posts"
      (by decide) (by decide)).2.2.2 "t2" ⟨some "t2", some "r1"⟩ 1 rfl).1,
   ((makeRequest_single_refresh_retry demoApiEnv demoApiSt "/posts"
      (by decide) (by decide)).2.2.2 "t2" ⟨some "t2", some "r1"⟩ 1 rfl).2⟩

/-! Section: Rate limiter theorems (claims C4, C10) -/

/-- Helper: pruning removes nothing from a set of strictly in-window
entries. -/
lemma removeRange_in_window (entries : RateEntries) (ws : Int)
    (hw : ∀ e ∈ entries, ws < e) :
    removeRangeByScore entries 0 ws = entries := by
  unfold removeRangeByScore
  rw [List.filter_eq_self]
  intro e he
  simp only [Bool.or_eq_true, decide_eq_true_eq]
  right
  exact hw e he

/-- Helper: every in-window entry is counted. -/
lemma zCount_in_window (entries : RateEntries) (t ws : Int)
    (hle : ∀ e ∈ entries, e ≤ t) (hw : ∀ e ∈ entries, ws < e) :
    zCount entries ws t = entries.length := by
  unfold zCount
  rw [List.filter_eq_self.mpr]
  intro e he
  simp only [Bool.and_eq_true, decide_eq_true_eq]
  exact ⟨le_of_lt (hw e he), hle e he⟩

/-- Helper: a full run of acquire calls whose times all lie in one window
(pairwise, in order) produces exactly the `decisions` sequence determined by
the starting in-window count. -/
lemma runAcquires_decisions (limit : Nat) (W : Int) :
    ∀ (times : List Int) (entries : RateEntries),
      (∀ e ∈ entries, 0 ≤ e) →
      (∀ e ∈ entries, ∀ t ∈ times, e ≤ t ∧ t - W * 1000 < e) →
      (∀ t ∈ times, 0 ≤ t) →
      times.Pairwise (fun s t => s ≤ t ∧ t - W * 1000 < s) →
      (runAcquires limit W entries times).1
        = decisions limit entries.length times.length := by
  intro times
  induction times with
  | nil =>
    intro entries _ _ _ _
    rfl
  | cons t ts ih =>
    intro entries h0 hwin ht hp
    have hmem : t ∈ t :: ts := List.mem_cons_self t ts
    have hprune : removeRangeByScore entries 0 (t - W * 1000) = entries :=
      removeRange_in_window entries (t - W * 1000)
        (fun e he => (hwin e he t hmem).2)
    have hcount : zCount entries (t - W * 1000) t = entries.length :=
      zCount_in_window entries t (t - W * 1000)
        (fun e he => (hwin e he t hmem).1)
        (fun e he => (hwin e he t hmem).2)
    have hpair := List.pairwise_cons.mp hp
    have ht' : ∀ u ∈ ts, 0 ≤ u := fun u hu => ht u (List.mem_cons_of_mem t hu)
    by_cases hlt : entries.length < limit
    · have hstep : slidingWindowRateLimit entries t limit W
          = (true, entries ++ [t]) := by
        unfold slidingWindowRateLimit
        simp only [hprune, hcount]
        rw [if_pos hlt]
      have h0' : ∀ e ∈ entries ++ [t], 0 ≤ e := by
        intro e he
        rcases List.mem_append.mp he with h | h
        · exact h0 e h
        · rw [List.mem_singleton.mp h]
          exact ht t hmem
      have hwin' : ∀ e ∈ entries ++ [t], ∀ u ∈ ts, e ≤ u ∧ u - W * 1000 < e := by
        intro e he u hu
        rcases List.mem_append.mp he with h | h
        · exact hwin e h u (List.mem_cons_of_mem t hu)
        · rw [List.mem_singleton.mp h]
          exact hpair.1 u hu
      have := ih (entries ++ [t]) h0' hwin' ht' hpair.2
      simp only [runAcquires, hstep]
      rw [this]
      simp [decisions, hlt, List.length_append]
    · have hstep : slidingWindowRateLimit entries t limit W
          = (false, entries) := by
        unfold slidingWindowRateLimit
        simp only [hprune, hcount]
        rw [if_neg hlt]
      have hwin' : ∀ e ∈ entries, ∀ u ∈ ts, e ≤ u ∧ u - W * 1000 < e :=
        fun e he u hu => hwin e he u (List.mem_cons_of_mem t hu)
      have := ih entries h0 hwin' ht' hpair.2
      simp only [runAcquires, hstep]
      rw [this]
      simp [decisions, hlt]

/-- Helper: one unfolding step of `decisions`. -/
lemma decisions_succ (limit n k : Nat) :
    decisions limit n (k + 1)
      = decide (n < limit) :: decisions limit (if n < limit then n + 1 else n) k :=
  rfl

/-- Helper: starting `d` below the limit, the next `d` decisions admit and
the following one denies. -/
lemma decisions_exhaust (n d : Nat) :
    decisions (n + d) n (d + 1) = List.replicate d true ++ [false] := by
  induction d generalizing n with
  | zero => simp [decisions]
  | succ d ih =>
    have hlt : n < n + (d + 1) := by omega
    have harith : n + (d + 1) = (n + 1) + d := by omega
    rw [decisions_succ, decide_eq_true hlt, if_pos hlt, harith, ih (n + 1)]
    rfl

/-- Claim C4: with capacity `C` per window of `W` seconds, a sequence of
`C + 1` acquire calls all falling inside one window (ordered, pairwise
in-window, non-negative times) admits the first `C` calls and denies the
`(C+1)`-th. -/
theorem rateLimiter_window_capacity (C : Nat) (W : Int) (times : List Int)
    (hlen : times.length = C + 1)
    (hpos : ∀ t ∈ times, 0 ≤ t)
    (hP : times.Pairwise (fun s t => s ≤ t ∧ t - W * 1000 < s)) :
    (runAcquires C W [] times).1 = List.replicate C true ++ [false] := by
  have h := runAcquires_decisions C W times []
    (by intro e he; cases he)
    (by intro e he; cases he)
    hpos hP
  rw [h, hlen]
  simpa using decisions_exhaust 0 C

/-- Witness for `rateLimiter_window_capacity`: capacity 2 per 1-second
window, three rapid calls at 0 ms, 100 ms and 200 ms — admitted, admitted,
denied. -/
theorem rateLimiter_window_capacity_witness :
    (runAcquires 2 1 [] [(0 : Int), 100, 200]).1
      = List.replicate 2 true ++ [false] :=
  rateLimiter_window_capacity 2 1 [(0 : Int), 100, 200]
    (by decide) (by decide) (by decide)

/-- Helper: pruning twice with a wider window equals pruning once with the
wider window. -/
lemma removeRange_twice (s : RateEntries) (a b : Int) (hab : a ≤ b) :
    removeRangeByScore (removeRangeByScore s 0 a) 0 b
      = removeRangeByScore s 0 b := by
  unfold removeRangeByScore
  rw [List.filter_filter]
  apply List.filter_congr
  intro e _
  by_cases h0 : e < (0 : Int)
  · simp [h0]
  · by_cases hb : b < e
    · have ha : a < e := lt_of_le_of_lt hab hb
      simp [h0, ha, hb]
    · simp [h0, hb]

/-- Claim C10: a denied acquire consumes no capacity.  When the check
denies, the state afterwards is exactly the pruned entry list — no new
timestamp is recorded and every remaining entry was already present — and
any later check (at any time from `now` on) computes exactly what it would
have computed had the denied call never touched the state. -/
theorem rateLimiter_denied_no_consumption (entries : RateEntries)
    (now t2 : Int) (limit : Nat) (W : Int)
    (hdeny : (slidingWindowRateLimit entries now limit W).1 = false)
    (h12 : now ≤ t2) :
    (slidingWindowRateLimit entries now limit W).2
      = removeRangeByScore entries 0 (now - W * 1000) ∧
    ((slidingWindowRateLimit entries now limit W).2).Sublist entries ∧
    slidingWindowRateLimit (slidingWindowRateLimit entries now limit W).2
        t2 limit W
      = slidingWindowRateLimit entries t2 limit W := by
  have hc : ¬ (zCount (removeRangeByScore entries 0 (now - W * 1000))
      (now - W * 1000) now < limit) := by
    intro h
    unfold slidingWindowRateLimit at hdeny
    rw [if_pos h] at hdeny
    simp at hdeny
  have h2 : (slidingWindowRateLimit entries now limit W).2
      = removeRangeByScore entries 0 (now - W * 1000) := by
    unfold slidingWindowRateLimit
    rw [if_neg hc]
  refine ⟨h2, ?_, ?_⟩
  · rw [h2]
    exact List.filter_sublist entries
  · rw [h2]
    have hws : now - W * 1000 ≤ t2 - W * 1000 := by omega
    unfold slidingWindowRateLimit
    rw [removeRange_twice entries (now - W * 1000) (t2 - W * 1000) hws]

/-- Witness for `rateLimiter_denied_no_consumption`: two in-window entries
at capacity 2 deny the call at 20 ms, and the check at 30 ms is unaffected
by the denied call's state. -/
theorem rateLimiter_denied_no_consumption_witness :
    (slidingWindowRateLimit [(5 : Int), 10] 20 2 1).2
      = removeRangeByScore [(5 : Int), 10] 0 (20 - 1 * 1000) ∧
    slidingWindowRateLimit (slidingWindowRateLimit [(5 : Int), 10] 20 2 1).2
        30 2 1
      = slidingWindowRateLimit [(5 : Int), 10] 30 2 1 :=
  ⟨(rateLimiter_denied_no_consumption [(5 : Int), 10] 20 30 2 1
      (by decide) (by decide)).1,
   (rateLimiter_denied_no_consumption [(5 : Int), 10] 20 30 2 1
      (by decide) (by decide)).2.2⟩

end SocialSync
